import Mathlib

/-!
# The AMQP relay of `cmd/consume.go`

A shallow embedding of the two functions of `cmd/consume.go`, `createTlsConfig` and
`consume`, and the properties of them that the specification states.

The calls into the AMQP client library (`Dial`, `NewSession`, `NewReceiver`, `Receive`,
`Accept`, `NewSender`, `Send`, `Close`) are the program's interface with the broker and the
sink.  Their results are inputs of the model (`World`, `RecvEvent`, `Delivery`); the calls
the program makes are its output, a list of `Effect`s, together with the way the run ends
(`Outcome`).  `Receive` is the source of the inputs and is represented by the consumption of
the list of receive events.

The source declares the annotation map as `var annotations  map[string][string]`; this is read
as the Go type `map[string]string`.  A map variable declared with `var` and never given a value
by `make` is the nil map.
-/

namespace Relay

/-! ## Go values -/

/-- Go `error` values, by their text. -/
abbrev Error := String

/-- Dynamically typed value (a Go `interface{}`), the type of annotation keys and values. -/
inductive Value where
  | str (s : String)
  | int (i : Int)
  | bool (b : Bool)
  deriving DecidableEq, Repr

/-- Run-time panics the code of `consume` can raise. -/
inductive Fault where
  /-- The type assertion `x.(string)` on a value that is not a string. -/
  | typeAssertion
  /-- An assignment `m[k] = v` where `m` is the nil map. -/
  | nilMapWrite
  deriving DecidableEq, Repr

/-- The type assertion `x.(string)`. -/
def Value.assertString : Value → Except Fault String
  | .str s => .ok s
  | _ => .error .typeAssertion

/-- Go `map[string]string`: either the nil map or a map made with entries. -/
inductive StringMap where
  | nil
  | made (entries : List (String × String))
  deriving DecidableEq, Repr

/-- The index expression `m[k]`: the zero value `""` when the key is absent or the map nil. -/
def StringMap.index : StringMap → String → String
  | .nil, _ => ""
  | .made entries, k => (entries.lookup k).getD ""

/-- The assignment `m[k] = v`: a panic on the nil map. -/
def StringMap.assign : StringMap → String → String → Except Fault StringMap
  | .nil, _, _ => .error .nilMapWrite
  | .made entries, k, v => .ok (.made ((k, v) :: entries.filter (fun e => e.1 ≠ k)))

/-! ## TLS configuration -/

/-- An X.509 certificate, by its encoded text. -/
structure Certificate where
  der : String
  deriving DecidableEq, Repr

/-- An `x509.CertPool`. -/
abbrev CertPool := List Certificate

/-- The two fields of `tls.Config` the program sets; the others keep their zero value. -/
structure TlsConfig where
  insecureSkipVerify : Bool
  rootCAs : Option CertPool
  deriving DecidableEq, Repr

/-- `x509.NewCertPool()`. -/
def newCertPool : CertPool := []

/-- Source: `createTlsConfig`.  The result is a `*tls.Config`, so `none` stands for `nil`.
`pemCertificates` is the library's PEM decoder: the certificates that
`AppendCertsFromPEM` finds in a text (its boolean result is dropped by the source). -/
def createTlsConfig (pemCertificates : String → List Certificate)
    (tlsConfig : Int) (tlsCert : String) : Option TlsConfig :=
  if tlsConfig = 1 then
    some { insecureSkipVerify := true, rootCAs := none }
  else
    let caCertPool := newCertPool
    let caCertPool := caCertPool ++ pemCertificates tlsCert
    some { insecureSkipVerify := false, rootCAs := some caCertPool }

/-! ## Messages, effects and outcomes -/

/-- An `amqp.ConnOption`. -/
inductive ConnOption where
  | connTLSConfig (cfg : Option TlsConfig)
  | connSASLPlain (username password : String)
  deriving DecidableEq, Repr

/-- An inbound message: its payload and its annotations, listed in the order in which the
`range` loop visits them. -/
structure Message where
  payload : String
  annotations : List (Value × Value)
  deriving DecidableEq, Repr

/-- A message returned by `Receive`, with the results the library gives to the calls made
for it (`none` is a nil error). -/
structure Delivery where
  msg : Message
  acceptErr : Option Error
  newSenderErr : Option Error
  sendErr : Option Error
  deriving DecidableEq, Repr

/-- What one call of `receiver.Receive` returns. -/
inductive RecvEvent where
  | msg (d : Delivery)
  | err (e : Error)
  deriving DecidableEq, Repr

/-- A call made by `consume`, with `ok` telling whether the call returned a nil error. -/
inductive Effect where
  | dial (uri : String) (opts : List ConnOption) (ok : Bool)
  | newSession (ok : Bool)
  | newReceiver (source : String) (credit : Nat) (ok : Bool)
  | accept (m : Message) (ok : Bool)
  | newSender (target : String) (ok : Bool)
  | send (target : String) (m : Message) (ok : Bool)
  | closeSender (target : String)
  | closeReceiver (ok : Bool)
  | closeSession (ok : Bool)
  | closeClient (ok : Bool)
  | logFatal (text : String)
  deriving DecidableEq, Repr

/-- How a run ends. -/
inductive Outcome where
  /-- The function returned this error (`none` is `nil`). -/
  | returned (err : Option Error)
  /-- The process was ended by `log.Fatal` (`os.Exit(1)`); deferred calls do not run. -/
  | exited
  /-- A run-time panic. -/
  | panicked (f : Fault)
  /-- A call of `Receive` that never returns: no further delivery arrives. -/
  | blocked
  deriving DecidableEq, Repr

/-! ## The receive loop of `consume` -/

/-- Source: `consume`, the `range` loop over `msg.Annotations`, continued from the map
`annotations` built so far. -/
def extractInto : StringMap → List (Value × Value) → Except Fault StringMap
  | annotations, [] => .ok annotations
  | annotations, (typemsg, value) :: rest =>
    match typemsg.assertString with
    | .error f => .error f
    | .ok k =>
      match value.assertString with
      | .error f => .error f
      | .ok v =>
        match annotations.assign k v with
        | .error f => .error f
        | .ok annotations => extractInto annotations rest

/-- Source: `consume`, "Make map with relevant device info": the declaration
`var annotations map[string]string` (the nil map) followed by the `range` loop. -/
def extractAnnotations (raw : List (Value × Value)) : Except Fault StringMap :=
  extractInto .nil raw

/-- Source: `consume`, the argument of `amqp.LinkTargetAddress`. -/
def targetAddress (sink : String) (annotations : StringMap) : String :=
  sink ++ "/topics/" ++ annotations.index "device-id"

/-- Source: `consume`, the `for` loop, run on the results of the successive calls of
`Receive`.  `sink` is the package-level variable the loop reads. -/
def consumeLoop (sink : String) : List RecvEvent → List Effect × Outcome
  | [] => ([], .blocked)
  | .err e :: _ => ([], .returned (some e))
  | .msg d :: rest =>
    match d.acceptErr with
    | some _ => ([.accept d.msg false], .returned none)
    | none =>
      match extractAnnotations d.msg.annotations with
      | .error f => ([.accept d.msg true], .panicked f)
      | .ok annotations =>
        let target := targetAddress sink annotations
        match d.newSenderErr with
        | some _ =>
          ([.accept d.msg true, .newSender target false,
            .logFatal "Creating sender link:"], .exited)
        | none =>
          match d.sendErr with
          | some _ =>
            ([.accept d.msg true, .newSender target true, .send target d.msg false,
              .logFatal "Sending message:"], .exited)
          | none =>
            let r := consumeLoop sink rest
            ([.accept d.msg true, .newSender target true, .send target d.msg true,
              .closeSender target] ++ r.1, r.2)

/-! ## The whole of `consume` -/

/-- The results the library gives to the calls `consume` makes outside the loop, and the
results of the successive calls of `Receive`. -/
structure World where
  dialErr : Option Error
  newSessionErr : Option Error
  newReceiverErr : Option Error
  inbound : List RecvEvent
  closeReceiverErr : Option Error
  closeSessionErr : Option Error
  closeClientErr : Option Error
  deriving DecidableEq, Repr

/-- A deferred close: the result of the close call, the effect it is, and the text logged by
`log.Fatal` when it fails. -/
structure Deferred where
  err : Option Error
  call : Bool → Effect
  fatalText : String

/-- The deferred calls, most recently deferred first, run after the body ended with `o`. -/
def runDeferred (o : Outcome) : List Deferred → List Effect × Outcome
  | [] => ([], o)
  | d :: ds =>
    match d.err with
    | some _ => ([d.call false, .logFatal d.fatalText], .exited)
    | none =>
      let r := runDeferred o ds
      (d.call true :: r.1, r.2)

/-- The end of the function body: deferred calls run when the body returns or panics, and do
not run when the process exited or the body never ends. -/
def finish (body : List Effect × Outcome) (ds : List Deferred) : List Effect × Outcome :=
  match body.2 with
  | .exited => body
  | .blocked => body
  | o =>
    let r := runDeferred o ds
    (body.1 ++ r.1, r.2)

/-- Source: `consume`, the connection options built before `amqp.Dial`. -/
def connOptions (pemCertificates : String → List Certificate)
    (clientUsername clientPassword : String) (tlsConfig : Int) (tlsCert : String) :
    List ConnOption :=
  let opts : List ConnOption := []
  let opts :=
    if tlsConfig ≠ 0 then
      opts ++ [.connTLSConfig (createTlsConfig pemCertificates tlsConfig tlsCert)]
    else opts
  let opts :=
    if clientUsername ≠ "" ∧ clientPassword ≠ "" then
      opts ++ [.connSASLPlain clientUsername clientPassword]
    else opts
  opts

/-- Source: `consume`.  `sink` is the package-level variable, `pemCertificates` the library's
PEM decoder and `w` the results of the library calls. -/
def consume (sink : String) (pemCertificates : String → List Certificate) (w : World)
    (messageType uri port tenant clientUsername clientPassword : String)
    (tlsConfig : Int) (tlsCert : String) : List Effect × Outcome :=
  let opts := connOptions pemCertificates clientUsername clientPassword tlsConfig tlsCert
  let uri := "amqps://" ++ uri ++ ":" ++ port
  match w.dialErr with
  | some _ =>
    ([.dial uri opts false, .logFatal "AMQP dial failed to connect to Enmasse: "], .exited)
  | none =>
    let closeClient : Deferred := ⟨w.closeClientErr, .closeClient, "Failed to close client:"⟩
    match w.newSessionErr with
    | some e =>
      finish ([.dial uri opts true, .newSession false], .returned (some e)) [closeClient]
    | none =>
      let closeSession : Deferred :=
        ⟨w.closeSessionErr, .closeSession, "Failed to close session:"⟩
      let source := messageType ++ "/" ++ tenant
      match w.newReceiverErr with
      | some e =>
        finish ([.dial uri opts true, .newSession true, .newReceiver source 10 false],
          .returned (some e)) [closeSession, closeClient]
      | none =>
        let closeReceiver : Deferred :=
          ⟨w.closeReceiverErr, .closeReceiver, "Failed to close receiver: "⟩
        let r := consumeLoop sink w.inbound
        finish ([.dial uri opts true, .newSession true, .newReceiver source 10 true] ++ r.1,
          r.2) [closeReceiver, closeSession, closeClient]

/-! ## Vocabulary of the statements below -/

/-- A message whose only annotation is a text `device-id`. -/
def deviceMessage (payload deviceId : String) : Message :=
  { payload := payload, annotations := [(.str "device-id", .str deviceId)] }

/-- A delivery for which accept, sender creation and send all succeed. -/
def delivered (m : Message) : Delivery :=
  { msg := m, acceptErr := none, newSenderErr := none, sendErr := none }

/-- The calls made for a message that is forwarded to `target`. -/
def forwardCalls (target : String) (m : Message) : List Effect :=
  [.accept m true, .newSender target true, .send target m true, .closeSender target]

/-- The calls made for a run of deliveries that are all forwarded, each paired with the map
its annotation loop yields. -/
def forwardedTrace (sink : String) : List (Delivery × StringMap) → List Effect
  | [] => []
  | p :: ps => forwardCalls (targetAddress sink p.2) p.1.msg ++ forwardedTrace sink ps

/-- The discipline of sender links in a trace of calls: a sender link that was created is
used by the very next call, a send to its own address; after a send that succeeded the next
call closes that link; after a send that failed the only further call is `log.Fatal`, which
ends the trace with the link still open.  There is no send and no close outside such a
group, so no link serves two sends. -/
def singleUseLinks : List Effect → Bool
  | [] => true
  | .newSender t true :: .send t1 _ true :: .closeSender t2 :: rest =>
    t1 == t && t2 == t && singleUseLinks rest
  | [.newSender t true, .send t1 _ false, .logFatal _] => t1 == t
  | .newSender _ true :: _ => false
  | .send _ _ _ :: _ => false
  | .closeSender _ :: _ => false
  | _ :: rest => singleUseLinks rest

/-- Whether a call is a call of `amqp.Dial`. -/
def Effect.isDial : Effect → Bool
  | .dial _ _ _ => true
  | _ => false

theorem extractAnnotations_nil : extractAnnotations [] = .ok .nil := rfl

/-- On a non-empty annotation set the loop faults at the first entry it visits. -/
theorem extractAnnotations_cons (kv : Value × Value) (rest : List (Value × Value)) :
    ∃ f, extractAnnotations (kv :: rest) = .error f := by
  obtain ⟨k, v⟩ := kv
  cases k <;> cases v <;>
    simp [extractAnnotations, extractInto, Value.assertString, StringMap.assign]

/-- The annotation loop completes only on the empty annotation set, with the nil map. -/
theorem extractAnnotations_ok {raw : List (Value × Value)} {ann : StringMap}
    (h : extractAnnotations raw = .ok ann) : raw = [] ∧ ann = .nil := by
  cases raw with
  | nil =>
    rw [extractAnnotations_nil] at h
    cases h
    exact ⟨rfl, rfl⟩
  | cons kv rest =>
    obtain ⟨f, hf⟩ := extractAnnotations_cons kv rest
    rw [hf] at h
    cases h

/-- One turn of the loop in which every call succeeds. -/
theorem consumeLoop_forward (sink : String) (d : Delivery) (rest : List RecvEvent)
    (ann : StringMap) (ha : d.acceptErr = none)
    (hx : extractAnnotations d.msg.annotations = .ok ann)
    (hs : d.newSenderErr = none) (hd : d.sendErr = none) :
    consumeLoop sink (.msg d :: rest) =
      (forwardCalls (targetAddress sink ann) d.msg ++ (consumeLoop sink rest).1,
        (consumeLoop sink rest).2) := by
  simp [consumeLoop, ha, hx, hs, hd, forwardCalls]

/-- A delivery that is accepted and carries at least one annotation ends the loop with a
panic right after the accept. -/
theorem consumeLoop_annotated (sink : String) (d : Delivery) (rest : List RecvEvent)
    (ha : d.acceptErr = none) (hne : d.msg.annotations ≠ []) :
    ∃ f, consumeLoop sink (.msg d :: rest) = ([.accept d.msg true], .panicked f) := by
  rcases hraw : d.msg.annotations with _ | ⟨kv, more⟩
  · exact absurd hraw hne
  · obtain ⟨f, hf⟩ := extractAnnotations_cons kv more
    exact ⟨f, by simp [consumeLoop, ha, hraw, hf]⟩

/-- Every sender the loop asks for is asked for a delivered message whose annotation loop
completed, at the address built from the extracted map. -/
theorem newSender_mem_consumeLoop (sink : String) (events : List RecvEvent)
    (target : String) (ok : Bool)
    (h : Effect.newSender target ok ∈ (consumeLoop sink events).1) :
    ∃ d ann, RecvEvent.msg d ∈ events ∧ extractAnnotations d.msg.annotations = .ok ann ∧
      target = targetAddress sink ann := by
  induction events with
  | nil => simp [consumeLoop] at h
  | cons ev rest ih =>
    cases ev with
    | err e => simp [consumeLoop] at h
    | msg d =>
      rcases ha : d.acceptErr with _ | e
      · rcases hx : extractAnnotations d.msg.annotations with f | ann
        · simp [consumeLoop, ha, hx] at h
        · rcases hs : d.newSenderErr with _ | e
          · rcases hd : d.sendErr with _ | e
            · simp only [consumeLoop, ha, hx, hs, hd] at h
              simp only [List.cons_append, List.nil_append, List.mem_cons] at h
              rcases h with h | h | h | h | h
              · cases h
              · cases h
                exact ⟨d, ann, by simp, hx, rfl⟩
              · cases h
              · cases h
              · obtain ⟨d', ann', hm, hx', ht⟩ := ih h
                exact ⟨d', ann', by simp [hm], hx', ht⟩
            · simp only [consumeLoop, ha, hx, hs, hd, List.mem_cons] at h
              rcases h with h | h | h | h | h
              · cases h
              · cases h
                exact ⟨d, ann, by simp, hx, rfl⟩
              · cases h
              · cases h
              · cases h
          · simp only [consumeLoop, ha, hx, hs, List.mem_cons] at h
            rcases h with h | h | h | h
            · cases h
            · cases h
              exact ⟨d, ann, by simp, hx, rfl⟩
            · cases h
            · cases h
      · simp [consumeLoop, ha] at h

/-- The loop on a run of deliveries that are all forwarded, followed by `tail`. -/
theorem consumeLoop_forwarded_append (sink : String) (done : List (Delivery × StringMap))
    (tail : List RecvEvent)
    (hdone : ∀ p ∈ done, p.1.acceptErr = none ∧ p.1.newSenderErr = none ∧
      p.1.sendErr = none ∧ extractAnnotations p.1.msg.annotations = .ok p.2) :
    consumeLoop sink (done.map (fun p => RecvEvent.msg p.1) ++ tail) =
      (forwardedTrace sink done ++ (consumeLoop sink tail).1, (consumeLoop sink tail).2) := by
  induction done with
  | nil => simp [forwardedTrace]
  | cons p ps ih =>
    obtain ⟨ha, hs, hd, hx⟩ := hdone p (by simp)
    have ih' := ih (fun q hq => hdone q (by simp [hq]))
    simp only [List.map_cons, List.cons_append]
    rw [consumeLoop_forward sink p.1 _ p.2 ha hx hs hd, ih']
    simp [forwardedTrace]

/-! ## C1 -/

/-- C1 (the code at the failing input): three deliveries with the distinct text device-ids
`dev-1`, `dev-2`, `dev-3`, for which every accept, sender creation and send succeeds.  The
loop accepts the first message and then panics on the assignment into the nil map
`annotations`: no sender is opened, nothing is sent, and the second and third message are
never received. -/
theorem consumeLoop_three_devices :
    consumeLoop "events"
        [.msg (delivered (deviceMessage "m1" "dev-1")),
         .msg (delivered (deviceMessage "m2" "dev-2")),
         .msg (delivered (deviceMessage "m3" "dev-3"))] =
      ([.accept (deviceMessage "m1" "dev-1") true], .panicked .nilMapWrite) := by
  decide

/-! ## C2 -/

/-- Every sender the loop asks for has the sink base followed by `/topics/` as its target:
the annotation loop completes only with the nil map, whose `device-id` entry reads as the
empty string. -/
theorem newSender_target_bare (sink : String) (events : List RecvEvent) (target : String)
    (ok : Bool) (h : Effect.newSender target ok ∈ (consumeLoop sink events).1) :
    target = sink ++ "/topics/" := by
  obtain ⟨d, ann, _, hx, ht⟩ := newSender_mem_consumeLoop sink events target ok h
  obtain ⟨_, hnil⟩ := extractAnnotations_ok hx
  rw [ht, hnil]
  simp [targetAddress, StringMap.index]

/-- C2 (the code at the failing input): sink base `events` and a message whose only
annotation is the text entry `device-id = dev-42`, every library call succeeding.  The loop
accepts the message and panics on the assignment into the nil map `annotations`, so no
sender is opened for it; and no run of the loop with the sink base `events` ever asks for a
sender at `events/topics/dev-42`, whatever is delivered. -/
theorem sender_for_dev42_never_opened :
    consumeLoop "events" [.msg (delivered (deviceMessage "m" "dev-42"))] =
      ([.accept (deviceMessage "m" "dev-42") true], .panicked .nilMapWrite) ∧
    (∀ (events : List RecvEvent) (ok : Bool),
      Effect.newSender "events/topics/dev-42" ok ∉ (consumeLoop "events" events).1) := by
  refine ⟨by decide, fun events ok h => ?_⟩
  have ht := newSender_target_bare "events" events "events/topics/dev-42" ok h
  exact absurd ht (by decide)

/-! ## C3 -/

/-- C3 (the code at the failing input): on the all-text annotations
`device-id = dev-1`, `region = us` the annotation loop does not complete: its first
assignment is into the nil map and panics.  The loop of `consume` ends there, after the
accept, and the message is not forwarded. -/
theorem extract_dev1_region_panics :
    extractAnnotations [(.str "device-id", .str "dev-1"), (.str "region", .str "us")] =
      .error .nilMapWrite ∧
    consumeLoop "sink"
        [.msg (delivered ⟨"m", [(.str "device-id", .str "dev-1"), (.str "region", .str "us")]⟩)] =
      ([.accept ⟨"m", [(.str "device-id", .str "dev-1"), (.str "region", .str "us")]⟩ true],
        .panicked .nilMapWrite) :=
  ⟨rfl, by decide⟩

/-! ## C4 -/

/-- C4 (counterexample): a message without any annotation, hence without `device-id`, is not
skipped: a sender is opened for it at `sink/topics/` and the message is sent there. -/
theorem missing_device_id_is_forwarded :
    consumeLoop "sink" [.msg (delivered ⟨"m", []⟩)] =
      ([.accept ⟨"m", []⟩ true, .newSender "sink/topics/" true,
        .send "sink/topics/" ⟨"m", []⟩ true, .closeSender "sink/topics/"], .blocked) := by
  decide

/-- C4 (amended): a message that has no annotations, and so no `device-id`, and whose accept,
sender creation and send succeed is not skipped: it is accepted, a sender is opened at the
sink base followed by `/topics/` (an empty device-id), the message is sent there and the
sender closed; the run does not end because of it: the loop goes on with the next receive. -/
theorem no_annotations_forwarded (sink : String) (d : Delivery) (rest : List RecvEvent)
    (hann : d.msg.annotations = []) (ha : d.acceptErr = none)
    (hs : d.newSenderErr = none) (hd : d.sendErr = none) :
    consumeLoop sink (.msg d :: rest) =
      ([.accept d.msg true, .newSender (sink ++ "/topics/") true,
        .send (sink ++ "/topics/") d.msg true, .closeSender (sink ++ "/topics/")] ++
          (consumeLoop sink rest).1,
        (consumeLoop sink rest).2) := by
  have hx : extractAnnotations d.msg.annotations = .ok .nil := by
    rw [hann]; rfl
  rw [consumeLoop_forward sink d rest .nil ha hx hs hd]
  simp [forwardCalls, targetAddress, StringMap.index]

/-- C4 (amended), at a concrete run: a message without annotations followed by a receive
error. -/
theorem no_annotations_forwarded_witness :
    consumeLoop "sink" [.msg (delivered ⟨"m", []⟩), .err "link detached"] =
      ([.accept (delivered ⟨"m", []⟩).msg true, .newSender ("sink" ++ "/topics/") true,
        .send ("sink" ++ "/topics/") (delivered ⟨"m", []⟩).msg true,
        .closeSender ("sink" ++ "/topics/")] ++
          (consumeLoop "sink" [.err "link detached"]).1,
        (consumeLoop "sink" [.err "link detached"]).2) :=
  no_annotations_forwarded "sink" (delivered ⟨"m", []⟩) [.err "link detached"]
    rfl rfl rfl rfl

/-! ## C5 -/

/-- C5 (counterexample): sender creation and send succeed, the first message has an
annotation whose key is not text and the second receive fails.  The loop does not end at the
failing receive with its error: it ends at the first message, with a type-assertion panic. -/
theorem loop_ends_before_receive_error :
    consumeLoop "sink" [.msg (delivered ⟨"m", [(.int 7, .str "x")]⟩), .err "link detached"] =
      ([.accept ⟨"m", [(.int 7, .str "x")]⟩ true], .panicked .typeAssertion) := by
  decide

/-- C5 (amended): in a run where, for every message before index `k`, the accept succeeds,
the annotation loop completes without fault, and sender creation and send succeed, every
message before `k` is accepted and forwarded, in order, and: if the `k`-th receive fails with
`e` the loop returns `e`; if the `k`-th receive succeeds and its accept fails the loop returns
nil and the only call made for message `k` is the failed accept (no sender is opened). -/
theorem loop_ends_at_first_failure (sink : String) (done : List (Delivery × StringMap))
    (rest : List RecvEvent)
    (hdone : ∀ p ∈ done, p.1.acceptErr = none ∧ p.1.newSenderErr = none ∧
      p.1.sendErr = none ∧ extractAnnotations p.1.msg.annotations = .ok p.2) :
    (∀ e : Error,
      consumeLoop sink (done.map (fun p => RecvEvent.msg p.1) ++ .err e :: rest) =
        (forwardedTrace sink done, .returned (some e))) ∧
    (∀ (d : Delivery) (e : Error), d.acceptErr = some e →
      consumeLoop sink (done.map (fun p => RecvEvent.msg p.1) ++ .msg d :: rest) =
        (forwardedTrace sink done ++ [.accept d.msg false], .returned none)) := by
  refine ⟨fun e => ?_, fun d e he => ?_⟩
  · rw [consumeLoop_forwarded_append sink done _ hdone]
    simp [consumeLoop]
  · rw [consumeLoop_forwarded_append sink done _ hdone]
    simp [consumeLoop, he]

/-- C5 (amended), at a concrete run: two forwarded messages, then a receive error, and the
same two messages, then a message whose accept fails. -/
theorem loop_ends_at_first_failure_witness :
    (∀ e : Error,
      consumeLoop "sink"
          ([(delivered ⟨"m1", []⟩, StringMap.nil), (delivered ⟨"m2", []⟩, StringMap.nil)].map
            (fun p => RecvEvent.msg p.1) ++ .err e :: []) =
        (forwardedTrace "sink"
          [(delivered ⟨"m1", []⟩, StringMap.nil), (delivered ⟨"m2", []⟩, StringMap.nil)],
          .returned (some e))) ∧
    (∀ (d : Delivery) (e : Error), d.acceptErr = some e →
      consumeLoop "sink"
          ([(delivered ⟨"m1", []⟩, StringMap.nil), (delivered ⟨"m2", []⟩, StringMap.nil)].map
            (fun p => RecvEvent.msg p.1) ++ .msg d :: []) =
        (forwardedTrace "sink"
          [(delivered ⟨"m1", []⟩, StringMap.nil), (delivered ⟨"m2", []⟩, StringMap.nil)] ++
            [.accept d.msg false], .returned none)) :=
  loop_ends_at_first_failure "sink"
    [(delivered ⟨"m1", []⟩, StringMap.nil), (delivered ⟨"m2", []⟩, StringMap.nil)] []
    (by
      intro p hp
      simp only [List.mem_cons, List.mem_singleton, List.not_mem_nil, or_false] at hp
      rcases hp with rfl | rfl <;> exact ⟨rfl, rfl, rfl, rfl⟩)

/-! ## C6 -/

/-- A run in which a send failed was ended by `log.Fatal`. -/
theorem failed_send_exits (sink : String) (events : List RecvEvent) :
    ∀ t m, Effect.send t m false ∈ (consumeLoop sink events).1 →
      (consumeLoop sink events).2 = .exited := by
  induction events with
  | nil => simp [consumeLoop]
  | cons ev rest ih =>
    cases ev with
    | err e => simp [consumeLoop]
    | msg d =>
      rcases ha : d.acceptErr with _ | e
      · rcases hx : extractAnnotations d.msg.annotations with f | ann
        · simp [consumeLoop, ha, hx]
        · rcases hs : d.newSenderErr with _ | e
          · rcases hd : d.sendErr with _ | e
            · simpa [consumeLoop, ha, hx, hs, hd] using ih
            · simp [consumeLoop, ha, hx, hs, hd]
          · simp [consumeLoop, ha, hx, hs]
      · simp [consumeLoop, ha]

/-- C6 (counterexample): a delivery whose send fails.  The sender link is created and used
for the send, then `log.Fatal` ends the process: the link is not closed. -/
theorem failed_send_leaves_link_open :
    consumeLoop "sink" [.msg ⟨⟨"m", []⟩, none, none, some "timeout"⟩] =
      ([.accept ⟨"m", []⟩ true, .newSender "sink/topics/" true,
        .send "sink/topics/" ⟨"m", []⟩ false, .logFatal "Sending message:"], .exited) ∧
    Effect.closeSender "sink/topics/" ∉
      (consumeLoop "sink" [.msg ⟨⟨"m", []⟩, none, none, some "timeout"⟩]).1 := by
  decide

/-- C6 (amended): in every run of the loop, every sender link that is created is used at
once for exactly one send; when that send succeeds the link is closed before anything else
happens, and when it fails the process is ended by `log.Fatal` without the link being
closed; no link is used for a later message. -/
theorem sender_links_single_use (sink : String) (events : List RecvEvent) :
    singleUseLinks (consumeLoop sink events).1 = true ∧
    (∀ t m, Effect.send t m false ∈ (consumeLoop sink events).1 →
      (consumeLoop sink events).2 = .exited) := by
  refine ⟨?_, failed_send_exits sink events⟩
  induction events with
  | nil => simp [consumeLoop, singleUseLinks]
  | cons ev rest ih =>
    cases ev with
    | err e => simp [consumeLoop, singleUseLinks]
    | msg d =>
      rcases ha : d.acceptErr with _ | e
      · rcases hx : extractAnnotations d.msg.annotations with f | ann
        · simp [consumeLoop, ha, hx, singleUseLinks]
        · rcases hs : d.newSenderErr with _ | e
          · rcases hd : d.sendErr with _ | e
            · simp [consumeLoop, ha, hx, hs, hd, singleUseLinks, ih]
            · simp [consumeLoop, ha, hx, hs, hd, singleUseLinks]
          · simp [consumeLoop, ha, hx, hs, singleUseLinks]
      · simp [consumeLoop, ha, singleUseLinks]

/-- The discipline rejects a link that is left open although its send succeeded, a link
that serves two sends, and a send to another address than the link's. -/
theorem singleUseLinks_rejects (t u : String) (m : Message) (hne : u ≠ t) :
    singleUseLinks [.newSender t true, .send t m true] = false ∧
    singleUseLinks [.newSender t true, .send t m true, .send t m true, .closeSender t] = false ∧
    singleUseLinks [.newSender t true, .send u m true, .closeSender t] = false ∧
    singleUseLinks [.newSender t true, .send t m false, .logFatal "x", .closeSender t] =
      false := by
  simp [singleUseLinks, hne]

/-! ## C7 -/

/-- The loop never dials. -/
theorem consumeLoop_no_dial (sink : String) (events : List RecvEvent) :
    ∀ x ∈ (consumeLoop sink events).1, x.isDial = false := by
  induction events with
  | nil => simp [consumeLoop]
  | cons ev rest ih =>
    cases ev with
    | err e => simp [consumeLoop]
    | msg d =>
      rcases ha : d.acceptErr with _ | e
      · rcases hx : extractAnnotations d.msg.annotations with f | ann
        · simp [consumeLoop, ha, hx, Effect.isDial]
        · rcases hs : d.newSenderErr with _ | e
          · rcases hd : d.sendErr with _ | e
            · simpa [consumeLoop, ha, hx, hs, hd, Effect.isDial] using ih
            · simp [consumeLoop, ha, hx, hs, hd, Effect.isDial]
          · simp [consumeLoop, ha, hx, hs, Effect.isDial]
      · simp [consumeLoop, ha, Effect.isDial]

/-- Deferred calls that are no dial add no dial. -/
theorem runDeferred_no_dial (o : Outcome) (ds : List Deferred)
    (hds : ∀ d ∈ ds, ∀ b, (d.call b).isDial = false) :
    ∀ x ∈ (runDeferred o ds).1, x.isDial = false := by
  induction ds with
  | nil => simp [runDeferred]
  | cons d ds ih =>
    have hd := hds d (by simp)
    have ih' := ih (fun q hq => hds q (by simp [hq]))
    rcases he : d.err with _ | e
    · simp only [runDeferred, he, List.mem_cons]
      rintro x (rfl | hx)
      · exact hd true
      · exact ih' x hx
    · simp only [runDeferred, he, List.mem_cons, List.mem_singleton, List.not_mem_nil, or_false]
      rintro x (rfl | rfl)
      · exact hd false
      · rfl

/-- The end of the body adds no dial to a body without one. -/
theorem finish_no_dial (body : List Effect × Outcome) (ds : List Deferred)
    (hbody : ∀ x ∈ body.1, x.isDial = false)
    (hds : ∀ d ∈ ds, ∀ b, (d.call b).isDial = false) :
    ∀ x ∈ (finish body ds).1, x.isDial = false := by
  have hr := fun o => runDeferred_no_dial o ds hds
  intro x hx
  unfold finish at hx
  split at hx
  · exact hbody x hx
  · exact hbody x hx
  · rcases List.mem_append.mp hx with h | h
    · exact hbody x h
    · exact hr _ x h

/-- The end of the body keeps the first call of the body first. -/
theorem finish_cons (x : Effect) (b : List Effect) (o : Outcome) (ds : List Deferred) :
    (finish (x :: b, o) ds).1 = x :: (finish (b, o) ds).1 := by
  unfold finish
  cases o <;> simp

/-- The option list built by `consume`: the TLS option when the mode is not zero, then the
SASL PLAIN option when both credentials are non-empty. -/
theorem connOptions_eq (pem : String → List Certificate) (user pass : String) (mode : Int)
    (cert : String) :
    connOptions pem user pass mode cert =
      (if mode ≠ 0 then [ConnOption.connTLSConfig (createTlsConfig pem mode cert)] else []) ++
        (if user ≠ "" ∧ pass ≠ "" then [ConnOption.connSASLPlain user pass] else []) := by
  unfold connOptions
  split_ifs <;> simp

/-- The calls of `consume`: one dial, first, with the URI and options built from the
arguments, and no dial afterwards. -/
theorem consume_trace (sink : String) (pem : String → List Certificate) (w : World)
    (messageType host port tenant user pass : String) (mode : Int) (cert : String) :
    ∃ rest, (consume sink pem w messageType host port tenant user pass mode cert).1 =
        Effect.dial ("amqps://" ++ host ++ ":" ++ port)
          (connOptions pem user pass mode cert) w.dialErr.isNone :: rest ∧
      ∀ x ∈ rest, x.isDial = false := by
  unfold consume
  rcases hdial : w.dialErr with _ | e
  · rcases hsess : w.newSessionErr with _ | e
    · rcases hrecv : w.newReceiverErr with _ | e
      · simp only [List.cons_append, finish_cons, Option.isNone_none]
        refine ⟨_, rfl, ?_⟩
        intro x hx
        rcases List.mem_cons.mp hx with rfl | hx
        · rfl
        rcases List.mem_cons.mp hx with rfl | hx
        · rfl
        refine finish_no_dial _ _ ?_ ?_ x hx
        · simpa using consumeLoop_no_dial sink w.inbound
        · simp [Effect.isDial]
      · simp only [finish_cons, Option.isNone_none]
        refine ⟨_, rfl, ?_⟩
        intro x hx
        rcases List.mem_cons.mp hx with rfl | hx
        · rfl
        rcases List.mem_cons.mp hx with rfl | hx
        · rfl
        refine finish_no_dial _ _ ?_ ?_ x hx
        · simp
        · simp [Effect.isDial]
    · simp only [finish_cons, Option.isNone_none]
      refine ⟨_, rfl, ?_⟩
      intro x hx
      rcases List.mem_cons.mp hx with rfl | hx
      · rfl
      refine finish_no_dial _ _ ?_ ?_ x hx
      · simp
      · simp [Effect.isDial]
  · exact ⟨_, rfl, by simp [Effect.isDial]⟩

/-- When the connection, the session and the receiver are opened and the three deferred
closes succeed, `consume` returns what its loop returns. -/
theorem consume_returns_of_loop (sink : String) (pem : String → List Certificate) (w : World)
    (messageType host port tenant user pass : String) (mode : Int) (cert : String)
    (hdial : w.dialErr = none) (hsess : w.newSessionErr = none)
    (hrecv : w.newReceiverErr = none) (hcr : w.closeReceiverErr = none)
    (hcs : w.closeSessionErr = none) (hcc : w.closeClientErr = none) (err : Option Error)
    (hloop : (consumeLoop sink w.inbound).2 = .returned err) :
    (consume sink pem w messageType host port tenant user pass mode cert).2 =
      .returned err := by
  simp [consume, hdial, hsess, hrecv, finish, hloop, runDeferred, hcr, hcs, hcc]

/-- C7: for every host, port, TLS mode, certificate text, username and password (and every
behaviour of the broker), `consume` dials once, first, and the dial is to the URI
`amqps://` then the host, `:` and the port, whatever the TLS mode, with the option list made
of the TLS-configuration option exactly when the mode is not zero, followed by the SASL PLAIN
option exactly when username and password are both non-empty, and nothing else; the host
`broker.example.com` and the port `5671` give `amqps://broker.example.com:5671`. -/
theorem consume_dial (sink : String) (pem : String → List Certificate) (w : World)
    (messageType host port tenant user pass : String) (mode : Int) (cert : String) :
    (∃ rest, (consume sink pem w messageType host port tenant user pass mode cert).1 =
        Effect.dial ("amqps://" ++ host ++ ":" ++ port)
          ((if mode ≠ 0 then [ConnOption.connTLSConfig (createTlsConfig pem mode cert)]
            else []) ++
           (if user ≠ "" ∧ pass ≠ "" then [ConnOption.connSASLPlain user pass] else []))
          w.dialErr.isNone :: rest ∧
      ∀ x ∈ rest, x.isDial = false) ∧
    (∃ opts rest,
      (consume sink pem w messageType "broker.example.com" "5671" tenant user pass mode cert).1 =
        Effect.dial "amqps://broker.example.com:5671" opts w.dialErr.isNone :: rest) := by
  constructor
  · rw [← connOptions_eq]
    exact consume_trace sink pem w messageType host port tenant user pass mode cert
  · obtain ⟨rest, h, _⟩ :=
      consume_trace sink pem w messageType "broker.example.com" "5671" tenant user pass mode cert
    have hs : "amqps://" ++ "broker.example.com" ++ ":" ++ "5671" =
        "amqps://broker.example.com:5671" := by decide
    rw [hs] at h
    exact ⟨_, rest, h⟩

/-! ## C8 -/

/-- C8: for every certificate text, mode 1 gives the configuration that skips identity
verification and has no trust pool, the same whatever the certificate text. -/
theorem createTlsConfig_insecure (pem : String → List Certificate) :
    (∀ c, createTlsConfig pem 1 c = some { insecureSkipVerify := true, rootCAs := none }) ∧
    (∀ c1 c2, createTlsConfig pem 1 c1 = createTlsConfig pem 1 c2) := by
  constructor <;> intros <;> simp [createTlsConfig]

/-! ## C9 -/

/-- C9 (counterexample): for the empty PEM text, in which the decoder finds no certificate,
mode 2 reports no error and returns a configuration whose trust pool is empty. -/
theorem createTlsConfig_empty_pem :
    createTlsConfig (fun _ => []) 2 "" =
      some { insecureSkipVerify := false, rootCAs := some [] } := by
  decide

/-- C9 (amended): for every PEM text in which the decoder finds no certificate, the empty
text included, mode 2 reports no error: it returns a configuration that verifies the peer
and whose trust pool is empty. -/
theorem createTlsConfig_no_certificate (pem : String → List Certificate) (c : String)
    (h : pem c = []) :
    createTlsConfig pem 2 c = some { insecureSkipVerify := false, rootCAs := some [] } := by
  simp [createTlsConfig, newCertPool, h]

/-- C9 (amended), at a text that is not PEM and a decoder that finds a certificate in one
text only, another one. -/
theorem createTlsConfig_no_certificate_witness :
    createTlsConfig
        (fun text =>
          if text = "-----BEGIN CERTIFICATE----- MIIB -----END CERTIFICATE-----" then [⟨"MIIB"⟩]
          else [])
        2 "not a certificate" =
      some { insecureSkipVerify := false, rootCAs := some [] } :=
  createTlsConfig_no_certificate _ "not a certificate" (by decide)

/-! ## C10 -/

end Relay
